import Mathlib

/-!
Shallow embedding of the Stechuhr work-time tracker
(src/stechuhr/config.py, excel.py, engine.py).

Cell values of the spreadsheet are modelled as exact rationals; hours
stored in cells are stored as Excel time fractions (hours / 24), exactly
as `_hours_to_fraction` does, and read back through `_read_hours_value`.
Clock times are minutes since midnight (an integer), matching the
minute-granular `datetime.time` values the program writes.
-/

namespace Stechuhr

/-- Python `round(x, 2)` on the exact rational value. -/
def round2 (x : ℚ) : ℚ := (round (x * 100) : ℤ) / 100

/-- Python `round(x, 4)` on the exact rational value. -/
def round4 (x : ℚ) : ℚ := (round (x * 10000) : ℤ) / 10000

/-- `_hours_to_fraction`: decimal hours to Excel time fraction. -/
def hoursToFraction (h : ℚ) : ℚ := h / 24

/-- `_read_hours_value` on a non-empty numeric cell: values below 1 in
absolute value are time fractions (scaled by 24 and rounded to 2
decimals, which also covers the `timedelta` read path), larger values
are legacy decimal hours. -/
def readCell (v : ℚ) : ℚ := if |v| < 1 then round2 (v * 24) else v

/-- `_read_hours_value` including the `None` case (reads as 0.0). -/
def readHoursValue : Option ℚ → ℚ
  | none => 0
  | some v => readCell v

/-- Calendar date (year, month, day). -/
structure Date where
  year : ℕ
  month : ℕ
  day : ℕ
deriving DecidableEq, Repr

/-- Python `date` comparison: lexicographic on (year, month, day). -/
def Date.before (a b : Date) : Bool :=
  decide (a.year < b.year ∨ (a.year = b.year ∧
    (a.month < b.month ∨ (a.month = b.month ∧ a.day < b.day))))

/-- Gregorian leap year rule. -/
def isLeap (y : ℕ) : Bool := (y % 4 == 0 && y % 100 != 0) || (y % 400 == 0)

/-- Days in the months before month `m` of a common year. -/
def daysBeforeMonth (m : ℕ) : ℕ :=
  [0, 31, 59, 90, 120, 151, 181, 212, 243, 273, 304, 334].getD (m - 1) 0

/-- Rata die day number of a date (0001-01-01 has number 1). -/
def rataDie (d : Date) : ℕ :=
  365 * (d.year - 1) + (d.year - 1) / 4 + (d.year - 1) / 400
    - (d.year - 1) / 100
    + daysBeforeMonth d.month
    + (if 2 < d.month && isLeap d.year then 1 else 0)
    + d.day

/-- Python `date.weekday()`: Monday = 0 … Sunday = 6.
0001-01-01 (rata die 1) was a Monday. -/
def weekday (d : Date) : ℕ := (rataDie d + 6) % 7

/-- `WEEKDAY_NAMES` from excel.py. -/
def weekdayNames : List String := ["Mo", "Di", "Mi", "Do", "Fr", "Sa", "So"]

/-- Column-B weekday label for a date. -/
def weekdayName (d : Date) : String := weekdayNames.getD (weekday d) ""

/-- The configuration slice the core reads (config.py).  `expectedHours`
maps weekday index 0..4 (monday..friday keys) to hours;
`carryOverBalance` maps a year to a balance. -/
structure Config where
  travelOffsetMinutes : ℤ := 2
  expectedHours : List (ℕ × ℚ) := [(0, 8), (1, 8), (2, 8), (3, 8), (4, 8)]
  autoBreakThresholdHours : ℚ := 6
  autoBreakDeductionMinutes : ℚ := 30
  carryOverBalance : List (ℕ × ℚ) := []
deriving DecidableEq, Repr

/-- `get_expected_hours`: 0 outside Monday..Friday, else the configured
value for the weekday (missing key reads as 0). -/
def getExpectedHours (c : Config) (wd : ℕ) : ℚ :=
  if 4 < wd then 0 else ((c.expectedHours.lookup wd).getD 0)

/-- `get_travel_offset`. -/
def getTravelOffset (c : Config) : ℤ := c.travelOffsetMinutes

/-- `get_carry_over`: configured carry-over for a year, defaulting to 0. -/
def getCarryOver (c : Config) (y : ℕ) : ℚ :=
  (c.carryOverBalance.lookup y).getD 0

/-- Whether a carry-over is explicitly configured for a year. -/
def hasCarryOver (c : Config) (y : ℕ) : Bool :=
  (c.carryOverBalance.lookup y).isSome

/-- One Ein/Aus/Stunden cell triple of a day row.  `ein`/`aus` are
minutes since midnight; `stunden` is the raw cell value. -/
structure StampBlock where
  ein : Option ℤ := none
  aus : Option ℤ := none
  stunden : Option ℚ := none
deriving DecidableEq, Repr

instance : Inhabited StampBlock := ⟨{}⟩

/-- An empty Ein/Aus/Stunden cell triple. -/
def emptyBlock : StampBlock := {}

/-- The Ein/Aus projection of a block (the cells `recalculate_day`
reads). -/
def einAus (b : StampBlock) : Option ℤ × Option ℤ := (b.ein, b.aus)

attribute [ext] StampBlock

/-- One day row of a month sheet.  `gesamt`, `soll`, `saldo` hold the
raw cell values (`none` = empty cell); `status` is the Status cell
text (empty cell reads as `""`, as in `_read_day_status`). -/
structure Row where
  date : Date := ⟨2024, 1, 1⟩
  weekdayName : String := ""
  blocks : List StampBlock := []
  status : String := ""
  gesamt : Option ℚ := none
  soll : Option ℚ := none
  saldo : Option ℚ := none
deriving DecidableEq, Repr

instance : Inhabited Row := ⟨{}⟩

attribute [ext] Row

/-- A month sheet: the stamp-block column count from the header row,
the day rows in sheet order, and the three summary cells. -/
structure Sheet where
  numBlocks : ℕ := 3
  rows : List Row := []
  summeGesamt : Option ℚ := none
  summeSoll : Option ℚ := none
  summeSaldo : Option ℚ := none
  uebertrag : Option ℚ := none
  kumuliert : Option ℚ := none
deriving DecidableEq, Repr

/-- Cell read of block `i` of a row: columns beyond the stored list are
empty cells. -/
def getBlock (r : Row) (i : ℕ) : StampBlock := r.blocks.getD i emptyBlock

/-- Cell write of block `i` of a row (padding with empty cells, since a
worksheet cell exists at any column). -/
def setBlock (r : Row) (i : ℕ) (b : StampBlock) : Row :=
  { r with blocks :=
      (r.blocks ++ List.replicate (i + 1 - r.blocks.length) emptyBlock).set i b }

/-- `find_day_row`: index of the first row whose date cell matches. -/
def findDayRow (s : Sheet) (d : Date) : Option ℕ :=
  s.rows.findIdx? (fun r => decide (r.date = d))

/-- The forward scan of `recalculate_day` for the first block with a
non-empty Ein. -/
def firstEinIdx (bs : List StampBlock) : Option ℕ :=
  bs.findIdx? (fun b => b.ein.isSome)

/-- The reverse scan of `recalculate_day` for the last block with a
non-empty Aus, reported as an index into the original block order. -/
def lastAusIdx (bs : List StampBlock) : Option ℕ :=
  (bs.reverse.findIdx? (fun b => b.aus.isSome)).map
    (fun j => bs.length - 1 - j)

/-- The two-branch automatic break deduction of `recalculate_day` /
`calculate_current_hours` (excel.py lines 580-583 and 855-858). -/
def autoBreak (threshold dedMin t : ℚ) : ℚ :=
  if threshold + dedMin / 60 < t then t - dedMin / 60
  else if threshold < t then threshold
  else t

/-- The hours `recalculate_day` computes for block `i`, given the
offset-receiving block indices: `none` when either endpoint is missing,
else the span in hours after offset adjustment, clamped at 0 and
rounded to 4 decimals. -/
def blockHoursCalc (offset : ℤ) (fe la : Option ℕ) (i : ℕ)
    (b : StampBlock) : Option ℚ :=
  match b.ein, b.aus with
  | some e, some a =>
      let e2 := e - (if fe = some i then offset else 0)
      let a2 := a + (if la = some i then offset else 0)
      let diff : ℚ := ((a2 - e2 : ℤ) : ℚ) / 60
      some (round4 (if diff < 0 then 0 else diff))
  | _, _ => none

/-- The per-block hours list `recalculate_day` computes from the Ein/Aus
cells of the first `bs.length` blocks of a row. -/
def recalcHours (offset : ℤ) (isHome : Bool) (bs : List StampBlock) :
    List (Option ℚ) :=
  let fe := if isHome then none else firstEinIdx bs
  let la := if isHome then none else lastAusIdx bs
  (List.range bs.length).map (fun i => blockHoursCalc offset fe la i (bs.getD i emptyBlock))

/-- The Ein/Aus cells of the first `nb` blocks of a row, as
`recalculate_day` reads them. -/
def readBlocks (nb : ℕ) (r : Row) : List StampBlock :=
  (List.range nb).map (fun i => getBlock r i)

/-- `recalculate_day` on one day row (the cell reads and writes of
excel.py lines 507-602, with the row located separately):
recomputes every Stunden cell, applies the break deduction to the
total, fills an empty Soll cell from the configuration, and writes
Gesamt and Saldo. -/
def recalcRow (cfg : Config) (nb : ℕ) (d : Date) (r : Row) : Row :=
  let offset := getTravelOffset cfg
  let isHome := decide (r.status = "Home")
  let bs := readBlocks nb r
  let hoursList := recalcHours offset isHome bs
  let totalRaw := (hoursList.filterMap id).sum
  let totalWork := autoBreak cfg.autoBreakThresholdHours
    cfg.autoBreakDeductionMinutes totalRaw
  let expected := (match r.soll with
    | none => getExpectedHours cfg (weekday d)
    | some v => readCell v)
  { r with
    blocks := (List.range nb).map (fun i =>
      { getBlock r i with stunden :=
          (hoursList.getD i none).map (fun h => hoursToFraction (round2 h)) }),
    gesamt := some (hoursToFraction (round2 totalWork)),
    soll := match r.soll with
      | none => some (hoursToFraction (getExpectedHours cfg (weekday d)))
      | some v => some v,
    saldo := some (hoursToFraction (round2 (totalWork - expected))) }

/-- `recalculate_day` on a sheet: silent no-op when the date has no
row. -/
def recalculateDay (cfg : Config) (d : Date) (s : Sheet) : Sheet :=
  match findDayRow s d with
  | none => s
  | some i =>
      { s with rows := s.rows.set i (recalcRow cfg s.numBlocks d (s.rows.getD i default)) }

/-- `set_day_sick`: status to "Krank", Gesamt to the day's expected
hours (Soll cell when set, weekly schedule otherwise, both through
`_read_hours_value`), Saldo to 0.  No-op when the date has no row. -/
def setDaySick (cfg : Config) (d : Date) (s : Sheet) : Sheet :=
  match findDayRow s d with
  | none => s
  | some i =>
      let r := s.rows.getD i default
      let expectedRaw : ℚ := match r.soll with
        | some v => v
        | none => getExpectedHours cfg (weekday d)
      let expectedHrs := readCell expectedRaw
      let r2 := { r with status := "Krank",
                         gesamt := some (hoursToFraction expectedHrs),
                         saldo := some 0 }
      { s with rows := s.rows.set i r2 }

/-- One row of `fill_missing_days`: a row dated on/after the cutoff, a
row with any Ein stamp, or a row with a Gesamt value is left alone;
otherwise Gesamt and Soll are set to the weekly expected hours and
Saldo to 0. -/
def fillRow (cfg : Config) (nb : ℕ) (cutoff : Date) (r : Row) : Row :=
  if ¬ Date.before r.date cutoff then r
  else if (List.range nb).any (fun i => (getBlock r i).ein.isSome) then r
  else if r.gesamt.isSome then r
  else
    let e := getExpectedHours cfg (weekday r.date)
    { r with gesamt := some (hoursToFraction e),
             soll := some (hoursToFraction e),
             saldo := some 0 }

/-- `fill_missing_days` over the data rows of a sheet. -/
def fillMissingDays (cfg : Config) (cutoff : Date) (s : Sheet) : Sheet :=
  { s with rows := s.rows.map (fillRow cfg s.numBlocks cutoff) }

/-- `recalculate_sheet_summary`: sums Gesamt/Soll/Saldo over the day
rows (empty cells contribute 0), writes the Summe, Uebertrag and
Kumuliert cells, and returns the cumulative balance. -/
def recalcSheetSummary (carry : ℚ) (s : Sheet) : Sheet × ℚ :=
  let totalGesamt := (s.rows.map (fun r => readHoursValue r.gesamt)).sum
  let totalSoll := (s.rows.map (fun r => readHoursValue r.soll)).sum
  let totalSaldo := (s.rows.map (fun r => readHoursValue r.saldo)).sum
  let cumulative := round2 (carry + totalSaldo)
  ({ s with
      summeGesamt := some (hoursToFraction (round2 totalGesamt)),
      summeSoll := some (hoursToFraction (round2 totalSoll)),
      summeSaldo := some (hoursToFraction (round2 totalSaldo)),
      uebertrag := some (hoursToFraction (round2 carry)),
      kumuliert := some (hoursToFraction cumulative) },
    cumulative)

/-- One entry of `iter_day_rows_with_data`. -/
structure DayData where
  date : Date
  total : Option ℚ
  expected : ℚ
  saldo : Option ℚ
deriving DecidableEq, Repr

/-- `iter_day_rows_with_data`: the `(date, total, expected, saldo)`
tuples of the day rows, values read through `_read_hours_value`. -/
def iterDayRowsWithData (s : Sheet) : List DayData :=
  s.rows.map (fun r =>
    { date := r.date,
      total := r.gesamt.map readCell,
      expected := readHoursValue r.soll,
      saldo := r.saldo.map readCell })

/-- Position at which `_insert_day_row` inserts a new date, keeping
date order: before the first row with a later date, else at the end of
the data region (just before the "Summe" row). -/
def findInsertIdx (rows : List Row) (d : Date) : ℕ :=
  match rows.findIdx? (fun r => Date.before d r.date) with
  | some i => i
  | none => rows.length

/-- `_insert_day_row`: a fresh row for the date with weekday label and
expected hours filled in, all stamp cells empty.  Returns the index of
the new row. -/
def insertDayRow (cfg : Config) (d : Date) (s : Sheet) : ℕ × Sheet :=
  let i := findInsertIdx s.rows d
  let newRow : Row :=
    { date := d,
      weekdayName := weekdayName d,
      soll := some (hoursToFraction (getExpectedHours cfg (weekday d))) }
  (i, { s with rows := s.rows.insertIdx i newRow })

/-- `_expand_blocks`: a new empty Ein/Aus/Stunden column triple before
the summary columns (every row gains an empty block). -/
def expandBlocks (s : Sheet) : Sheet := { s with numBlocks := s.numBlocks + 1 }

/-- The stamp type argument of `write_stamp` ("ein" / "aus"). -/
inductive StampType
  | ein
  | aus
deriving DecidableEq, Repr

/-- The reverse scan of `write_stamp` for the last block with an Ein
and no Aus (the open block). -/
def lastOpenIdx (nb : ℕ) (r : Row) : Option ℕ :=
  (List.range nb).reverse.find?
    (fun j => (getBlock r j).ein.isSome && (getBlock r j).aus.isNone)

/-- `write_stamp`: inserts the day row when missing, writes the stamp,
and recalculates the day.  The first component is the error raised for
a clock-out with no open block ("Kein offener Eintrag gefunden"); the
second is the worksheet as mutated so far (on the error path the
inserted row persists and no recalculation runs). -/
def writeStamp (cfg : Config) (d : Date) (t : ℤ) (typ : StampType)
    (isHome : Bool) (s : Sheet) : Option String × Sheet :=
  let p := (match findDayRow s d with
    | some i => (i, s)
    | none => insertDayRow cfg d s)
  let i := p.1
  let s1 := p.2
  let nb := s1.numBlocks
  let r := s1.rows.getD i default
  match typ with
  | .ein =>
      let q := (match (List.range nb).find? (fun j => (getBlock r j).ein.isNone) with
        | some k => (k, s1)
        | none => (nb, expandBlocks s1))
      let tgt := q.1
      let s2 := q.2
      let r2 := setBlock r tgt { getBlock r tgt with ein := some t }
      let r3 := if tgt = 0 then
          { r2 with status := if isHome then "Home" else "Office" }
        else r2
      let s3 := { s2 with rows := s2.rows.set i r3 }
      (none, recalculateDay cfg d s3)
  | .aus =>
      match lastOpenIdx nb r with
      | none =>
          (some "Kein offener Eintrag gefunden. Bitte zuerst einstempeln.", s1)
      | some j =>
          let r2 := setBlock r j { getBlock r j with aus := some t }
          let s3 := { s1 with rows := s1.rows.set i r2 }
          (none, recalculateDay cfg d s3)

/-- A per-year workbook: the month sheets that exist, keyed by month
number 1..12. -/
structure Workbook where
  sheets : List (ℕ × Sheet) := []
deriving DecidableEq, Repr

/-- The data directory: the year workbooks that exist, keyed by year. -/
structure Store where
  books : List (ℕ × Workbook) := []
deriving DecidableEq, Repr

/-- Replace the value stored under a key in an association list. -/
def updateAssoc {α : Type} : List (ℕ × α) → ℕ → α → List (ℕ × α)
  | [], _, _ => []
  | (k, v) :: rest, key, nv =>
      if k = key then (k, nv) :: rest else (k, v) :: updateAssoc rest key nv

/-- The earliest tracked year (minimum over the year files found). -/
def earliestYear (st : Store) : Option ℕ := (st.books.map Prod.fst).min?

/-- The contribution of one day tuple to the running grand total:
days on/after the cutoff contribute nothing; otherwise the stored
Saldo when present, else `total - expected` when a total is present,
else nothing. -/
def dayContrib (cutoff : Date) (e : DayData) : ℚ :=
  if ¬ Date.before e.date cutoff then 0
  else match e.saldo with
    | some sal => sal
    | none => match e.total with
      | some t => t - e.expected
      | none => 0

/-- The months the engine walks for a year: 1..12, cut short at the
cutoff's month in the cutoff's year (the `break` in the loop). -/
def monthsFor (cutoff : Date) (y : ℕ) : List ℕ :=
  if y = cutoff.year then List.range' 1 cutoff.month else List.range' 1 12

/-- One `(year, month, carry-in, cumulative)` record of a
`recalculate_sheet_summary` call made by the engine walk. -/
structure TraceEntry where
  year : ℕ
  month : ℕ
  carryIn : ℚ
  cumulative : ℚ
deriving DecidableEq, Repr

/-- State after processing the months of one year. -/
structure MonthsResult where
  wb : Workbook
  carry : ℚ
  bal : ℚ
  trace : List TraceEntry
deriving DecidableEq, Repr

/-- The inner month loop of `calculate_overtime_balance`: for each
existing sheet, fill missing days, recalculate the summary (threading
the carry), and add every pre-cutoff day's contribution to the running
balance. -/
def processMonths (cfg : Config) (cutoff : Date) (year : ℕ) :
    Workbook → ℚ → ℚ → List ℕ → MonthsResult
  | wb, carry, bal, [] => ⟨wb, carry, bal, []⟩
  | wb, carry, bal, m :: ms =>
      match wb.sheets.lookup m with
      | none => processMonths cfg cutoff year wb carry bal ms
      | some sh =>
          let sh1 := fillMissingDays cfg cutoff sh
          let p := recalcSheetSummary carry sh1
          let contrib := ((iterDayRowsWithData p.1).map (dayContrib cutoff)).sum
          let wb2 : Workbook := ⟨updateAssoc wb.sheets m p.1⟩
          let rest := processMonths cfg cutoff year wb2 p.2 (bal + contrib) ms
          ⟨rest.wb, rest.carry, rest.bal,
           ⟨year, m, carry, p.2⟩ :: rest.trace⟩

/-- State after processing a range of years. -/
structure YearsResult where
  store : Store
  bal : ℚ
  trace : List TraceEntry
deriving DecidableEq, Repr

/-- The outer year loop of `calculate_overtime_balance`: each existing
workbook is processed with its months seeded from `get_carry_over` for
that year; the updated workbook is saved back into the store. -/
def processYears (cfg : Config) (cutoff : Date) :
    Store → ℚ → List ℕ → YearsResult
  | st, bal, [] => ⟨st, bal, []⟩
  | st, bal, y :: ys =>
      match st.books.lookup y with
      | none => processYears cfg cutoff st bal ys
      | some wb =>
          let mr := processMonths cfg cutoff y wb (getCarryOver cfg y) bal
            (monthsFor cutoff y)
          let st2 : Store := ⟨updateAssoc st.books y mr.wb⟩
          let rest := processYears cfg cutoff st2 mr.bal ys
          ⟨rest.store, rest.bal, mr.trace ++ rest.trace⟩

/-- The carry-over sum for configured years strictly before the
earliest tracked year. -/
def preCarrySum (cfg : Config) (earliest : ℕ) : ℚ :=
  ((cfg.carryOverBalance.filter (fun pr => decide (pr.1 < earliest))).map
    Prod.snd).sum

/-- The years `range(earliest_year, up_to_date.year + 1)`. -/
def yearsList (earliest cutoffYear : ℕ) : List ℕ :=
  List.range' earliest (cutoffYear + 1 - earliest)

/-- `calculate_overtime_balance` (engine.py): 0 with no year files;
otherwise the carry-over of years before the earliest tracked year
plus every pre-cutoff day's balance, accumulated over the walk and
rounded to 2 decimals. -/
def calculateOvertimeBalance (cfg : Config) (st : Store) (cutoff : Date) : ℚ :=
  match earliestYear st with
  | none => 0
  | some e =>
      let bal0 := preCarrySum cfg e
      round2 (processYears cfg cutoff st bal0 (yearsList e cutoff.year)).bal

/-- The `(year, month, carry-in, cumulative)` trace of the summary
recalculations performed by `calculate_overtime_balance`. -/
def engineTrace (cfg : Config) (st : Store) (cutoff : Date) : List TraceEntry :=
  match earliestYear st with
  | none => []
  | some e =>
      (processYears cfg cutoff st (preCarrySum cfg e) (yearsList e cutoff.year)).trace

/-! ### Specification-side definitions (for refinement statements) -/

/-- The spec's description of the offset-receiving entry block: the
first block (in block order) with a non-empty entry. -/
def isFirstEinBlock (bs : List StampBlock) (i : ℕ) : Prop :=
  i < bs.length ∧ (bs.getD i emptyBlock).ein.isSome = true ∧
    ∀ j < i, (bs.getD j emptyBlock).ein = none

/-- The spec's description of the offset-receiving exit block: the
last block (in block order) with a non-empty exit. -/
def isLastAusBlock (bs : List StampBlock) (i : ℕ) : Prop :=
  i < bs.length ∧ (bs.getD i emptyBlock).aus.isSome = true ∧
    ∀ j < bs.length, i < j → (bs.getD j emptyBlock).aus = none

instance (bs : List StampBlock) (i : ℕ) : Decidable (isFirstEinBlock bs i) := by
  unfold isFirstEinBlock
  exact inferInstance

instance (bs : List StampBlock) (i : ℕ) : Decidable (isLastAusBlock bs i) := by
  unfold isLastAusBlock
  exact inferInstance

/-- Block hours as the spec words them: the travel offset is subtracted
from the entry exactly when the block is the first entry-bearing block
and added to the exit exactly when it is the last exit-bearing block. -/
def specBlockHours (offset : ℤ) (bs : List StampBlock) (i : ℕ) : Option ℚ :=
  let b := bs.getD i emptyBlock
  match b.ein, b.aus with
  | some e, some a =>
      let e2 := e - (if isFirstEinBlock bs i then offset else 0)
      let a2 := a + (if isLastAusBlock bs i then offset else 0)
      let diff : ℚ := ((a2 - e2 : ℤ) : ℚ) / 60
      some (round4 (if diff < 0 then 0 else diff))
  | _, _ => none

/-- Block hours with no offset at all (the Home-day case of the spec). -/
def plainBlockHours (b : StampBlock) : Option ℚ :=
  match b.ein, b.aus with
  | some e, some a =>
      let diff : ℚ := ((a - e : ℤ) : ℚ) / 60
      some (round4 (if diff < 0 then 0 else diff))
  | _, _ => none

/-- A trace of summary recalculations chains from an initial carry:
each entry's carry-in is the given carry for the first entry and the
previous entry's cumulative afterwards. -/
def chainedFrom : ℚ → List TraceEntry → Prop
  | _, [] => True
  | c, e :: t => e.carryIn = c ∧ chainedFrom e.cumulative t

/-- A row with the status field blanked, to compare the computed fields
of two recalculations. -/
def stripStatus (r : Row) : Row := { r with status := "" }

/-- The row `set_day_sick` writes for an existing day row. -/
def sickRowOf (cfg : Config) (d : Date) (r : Row) : Row :=
  { r with status := "Krank",
           gesamt := some (hoursToFraction (readCell
             (match r.soll with
              | some v => v
              | none => getExpectedHours cfg (weekday d)))),
           saldo := some 0 }


/-! ### Concrete inputs used by counterexamples and witnesses -/

/-- The default configuration of config.py. -/
def cfgDefault : Config := {}

/-- A December 2023 row carrying a stored balance of 1.0 h (legacy
decimal cell values). -/
def c1decRow : Row :=
  { date := ⟨2023, 12, 4⟩, gesamt := some 8, soll := some 8, saldo := some 1 }

/-- A 2023 workbook holding only the December sheet. -/
def c1book2023 : Workbook := ⟨[(12, { rows := [c1decRow] })]⟩

/-- A 2024 workbook holding an empty January sheet. -/
def c1book2024 : Workbook := ⟨[(1, { rows := [] })]⟩

/-- Store with tracked data in 2023 and 2024. -/
def c1store : Store := ⟨[(2023, c1book2023), (2024, c1book2024)]⟩

/-- Cutoff inside January 2024. -/
def c1cut : Date := ⟨2024, 1, 15⟩

/-- Carry-over configured for 2023 only. -/
def c4cfg : Config := { carryOverBalance := [(2023, 5)] }

/-- A tracked day with a stored balance of 2.0 h. -/
def c4rowA : Row :=
  { date := ⟨2023, 6, 5⟩, gesamt := some 10, soll := some 8, saldo := some 2 }

/-- Store whose earliest tracked year is 2023 itself. -/
def c4storeA : Store := ⟨[(2023, ⟨[(6, { rows := [c4rowA] })]⟩)]⟩

/-- Cutoff at the end of 2023. -/
def c4cutA : Date := ⟨2023, 12, 31⟩

/-- A tracked day in 2024 with a stored balance of 2.0 h. -/
def c4rowB : Row :=
  { date := ⟨2024, 1, 3⟩, gesamt := some 10, soll := some 8, saldo := some 2 }

/-- Store whose earliest tracked year is 2024. -/
def c4storeB : Store := ⟨[(2024, ⟨[(1, { rows := [c4rowB] })]⟩)]⟩

/-- Cutoff inside February 2024. -/
def c4cutB : Date := ⟨2024, 2, 1⟩

/-- A past workday row carrying only an exit stamp (no entry), no
computed total. -/
def c6row : Row :=
  { date := ⟨2024, 1, 3⟩, blocks := [{ aus := some 1020 }] }

/-- Sheet holding just that row. -/
def c6sheet : Sheet := { rows := [c6row] }

/-- Cutoff after the row's date. -/
def c6cut : Date := ⟨2024, 2, 1⟩

/-- Configuration with a Monday expectation of 7.777 h (more than two
decimals) and no travel offset. -/
def c8cfg : Config :=
  { travelOffsetMinutes := 0,
    expectedHours := [(0, 7777/1000), (1, 8), (2, 8), (3, 8), (4, 8)] }

/-- A Monday row with an empty Soll cell and a single 2-minute block. -/
def c8row : Row :=
  { date := ⟨2024, 1, 8⟩, blocks := [{ ein := some 480, aus := some 482 }] }

/-- Sheet holding just that row. -/
def c8sheet : Sheet := { rows := [c8row] }

/-- The date of that row (a Monday). -/
def c8date : Date := ⟨2024, 1, 8⟩

/-- A day previously forced by the Sick override (status "Krank",
total = expected = 8 h, balance = 0) that also carries a complete
9:00-18:00 stamp block. -/
def c10row : Row :=
  { date := ⟨2024, 1, 8⟩, blocks := [{ ein := some 540, aus := some 1080 }],
    status := "Krank", gesamt := some (hoursToFraction 8),
    soll := some (hoursToFraction 8), saldo := some 0 }

/-- The date of that row. -/
def c10date : Date := ⟨2024, 1, 8⟩

/-! ### Helper lemmas -/

lemma getD_of_lt {α : Type} (l : List α) (x : α) (i : ℕ) (h : i < l.length) :
    l.getD i x = l[i] := by
  simp [List.getD_eq_getElem?_getD, List.getElem?_eq_getElem h]

lemma getD_of_le {α : Type} (l : List α) (x : α) (i : ℕ) (h : l.length ≤ i) :
    l.getD i x = x := by
  simp [List.getD_eq_getElem?_getD, List.getElem?_eq_none h]

lemma map_range_getD {α β : Type} (l : List α) (x : α) (f : α → β) :
    (List.range l.length).map (fun i => f (l.getD i x)) = l.map f := by
  apply List.ext_getElem
  · simp
  · intro i h1 h2
    simp only [List.getElem_map, List.getElem_range]
    rw [getD_of_lt _ _ _ (by simpa using h1)]

lemma findIdx?_set_of_eq_some {α : Type} {p : α → Bool} {l : List α} {i : ℕ}
    (h : l.findIdx? p = some i) {x : α} (hx : p x = true) :
    (l.set i x).findIdx? p = some i := by
  rw [List.findIdx?_eq_some_iff_getElem] at h
  obtain ⟨hlt, hp, hmin⟩ := h
  rw [List.findIdx?_eq_some_iff_getElem]
  refine ⟨by simpa using hlt, ?_, ?_⟩
  · rw [List.getElem_set_self]
    exact hx
  · intro j hj
    rw [List.getElem_set_ne (by omega)]
    exact hmin j hj

lemma findDayRow_lt {s : Sheet} {d : Date} {i : ℕ} (h : findDayRow s d = some i) :
    i < s.rows.length := by
  rw [findDayRow, List.findIdx?_eq_some_iff_getElem] at h
  exact h.1

lemma findDayRow_date {s : Sheet} {d : Date} {i : ℕ} (h : findDayRow s d = some i) :
    (s.rows.getD i default).date = d := by
  rw [findDayRow, List.findIdx?_eq_some_iff_getElem] at h
  obtain ⟨hlt, hp, _⟩ := h
  rw [getD_of_lt _ _ _ hlt]
  simpa using hp

lemma findDayRow_set {s : Sheet} {d : Date} {i : ℕ} (h : findDayRow s d = some i)
    {r : Row} (hr : r.date = d) (s2 : Sheet) (hrows : s2.rows = s.rows.set i r) :
    findDayRow s2 d = some i := by
  rw [findDayRow, hrows]
  exact findIdx?_set_of_eq_some h (by simpa using hr)

/-- Reverse access expressed through `getD`. -/
lemma getD_reverse (bs : List StampBlock) (j : ℕ) (hj : j < bs.length) :
    bs.reverse.getD j emptyBlock = bs.getD (bs.length - 1 - j) emptyBlock := by
  rw [getD_of_lt _ _ _ (by simpa using hj), getD_of_lt _ _ _ (by omega)]
  exact List.getElem_reverse (by simpa using hj)

/-- The forward block scan finds exactly the spec's first
entry-bearing block. -/
lemma firstEinIdx_eq_some_iff (bs : List StampBlock) (i : ℕ) :
    firstEinIdx bs = some i ↔ isFirstEinBlock bs i := by
  rw [firstEinIdx, List.findIdx?_eq_some_iff_getElem, isFirstEinBlock]
  constructor
  · rintro ⟨hlt, hp, hmin⟩
    refine ⟨hlt, ?_, ?_⟩
    · rw [getD_of_lt _ _ _ hlt]
      simpa using hp
    · intro j hj
      have hjl : j < bs.length := hj.trans hlt
      rw [getD_of_lt _ _ _ hjl]
      have h2 := hmin j hj
      simpa [Option.not_isSome_iff_eq_none] using h2
  · rintro ⟨hlt, hp, hmin⟩
    rw [getD_of_lt _ _ _ hlt] at hp
    refine ⟨hlt, by simpa using hp, ?_⟩
    intro j hj
    have hjl : j < bs.length := hj.trans hlt
    have h2 := hmin j hj
    rw [getD_of_lt _ _ _ hjl] at h2
    simp [h2]

/-- The reverse block scan finds exactly the spec's last exit-bearing
block. -/
lemma lastAusIdx_eq_some_iff (bs : List StampBlock) (i : ℕ) :
    lastAusIdx bs = some i ↔ isLastAusBlock bs i := by
  rw [lastAusIdx, isLastAusBlock]
  simp only [Option.map_eq_some', List.findIdx?_eq_some_iff_getElem]
  constructor
  · rintro ⟨j, ⟨hlt, hp, hmin⟩, rfl⟩
    rw [List.length_reverse] at hlt
    have hib : bs.length - 1 - j < bs.length := by omega
    refine ⟨hib, ?_, ?_⟩
    · have := getD_reverse bs j hlt
      rw [getD_of_lt _ _ _ (by simpa using hlt)] at this
      rw [← this]
      simpa using hp
    · intro k hk hgt
      have hm : bs.length - 1 - k < j := by omega
      have h2 := hmin _ hm
      have hrw := getD_reverse bs (bs.length - 1 - k) (by omega)
      rw [getD_of_lt _ _ _ (by simp; omega)] at hrw
      have hkk : bs.length - 1 - (bs.length - 1 - k) = k := by omega
      rw [hkk] at hrw
      rw [getD_of_lt _ _ _ hk]
      have h3 : ¬ (bs.getD k emptyBlock).aus.isSome = true := by
        rw [← hrw]
        simpa using h2
      rw [getD_of_lt _ _ _ hk] at h3
      simpa [Option.not_isSome_iff_eq_none] using h3
  · rintro ⟨hlt, hp, hmin⟩
    refine ⟨bs.length - 1 - i, ⟨?_, ?_, ?_⟩, by omega⟩
    · rw [List.length_reverse]; omega
    · have hrw := getD_reverse bs (bs.length - 1 - i) (by omega)
      rw [getD_of_lt _ _ _ (by simp; omega)] at hrw
      have hii : bs.length - 1 - (bs.length - 1 - i) = i := by omega
      rw [hii] at hrw
      rw [getD_of_lt _ _ _ hlt] at hp
      rw [getD_of_lt _ _ _ hlt] at hrw
      simp only [hrw]
      exact hp
    · intro m hm
      have hmb : m < bs.length := by omega
      have hkb : bs.length - 1 - m < bs.length := by omega
      have hik : i < bs.length - 1 - m := by omega
      have h2 := hmin _ hkb hik
      have hrw := getD_reverse bs m hmb
      rw [getD_of_lt _ _ _ (by simpa using hmb)] at hrw
      rw [hrw, h2]
      simp

/-! ### Claim theorems -/

/-- C2: the automatic break deduction in `recalculate_day` is the exact
two-branch policy: subtract the deduction when the total strictly
exceeds threshold + deduction, clamp to the threshold when the total
strictly exceeds only the threshold, leave it unchanged otherwise;
with threshold 6.0 h and deduction 30 min, 6.2 h becomes 6.0 h and
6.6 h becomes 6.1 h, and `recalcRow` stores exactly the deducted
total as Gesamt. -/
theorem C2_auto_break_policy :
    (∀ threshold ded t : ℚ, threshold + ded / 60 < t →
        autoBreak threshold ded t = t - ded / 60) ∧
    (∀ threshold ded t : ℚ, ¬ threshold + ded / 60 < t → threshold < t →
        autoBreak threshold ded t = threshold) ∧
    (∀ threshold ded t : ℚ, ¬ threshold + ded / 60 < t → ¬ threshold < t →
        autoBreak threshold ded t = t) ∧
    autoBreak 6 30 (31/5) = 6 ∧ autoBreak 6 30 (33/5) = 61/10 ∧
    (∀ (cfg : Config) (nb : ℕ) (d : Date) (r : Row),
      (recalcRow cfg nb d r).gesamt =
        some (hoursToFraction (round2 (autoBreak cfg.autoBreakThresholdHours
          cfg.autoBreakDeductionMinutes
          (((recalcHours (getTravelOffset cfg) (decide (r.status = "Home"))
              (readBlocks nb r)).filterMap id).sum))))) := by
  refine ⟨?_, ?_, ?_, by with_unfolding_all rfl, by with_unfolding_all rfl, ?_⟩
  · intro th ded t h
    simp [autoBreak, h]
  · intro th ded t h1 h2
    simp [autoBreak, h1, h2]
  · intro th ded t h1 h2
    simp [autoBreak, h1, h2]
  · intro cfg nb d r
    rfl

/-- Witness for C2 at concrete totals: 7 h is reduced by the
deduction, 6.2 h is clamped to the threshold, 5 h is unchanged. -/
theorem C2_auto_break_policy_witness :
    autoBreak 6 30 7 = 7 - 30/60 ∧ autoBreak 6 30 (31/5) = 6 ∧
      autoBreak 6 30 5 = 5 :=
  ⟨C2_auto_break_policy.1 6 30 7 (by norm_num),
   C2_auto_break_policy.2.1 6 30 (31/5) (by norm_num) (by norm_num),
   C2_auto_break_policy.2.2.1 6 30 5 (by norm_num) (by norm_num)⟩

lemma map_range_getD2 {α β : Type} (n : ℕ) (l : List α) (h : l.length = n)
    (x : α) (f : α → β) :
    (List.range n).map (fun i => f (l.getD i x)) = l.map f := by
  subst h
  exact map_range_getD l x f

/-- On a non-Home day the code's scan-based per-block hours coincide
with the spec's characterisation of the offset-receiving blocks. -/
lemma blockHoursCalc_eq_spec (offset : ℤ) (bs : List StampBlock) (i : ℕ) :
    blockHoursCalc offset (firstEinIdx bs) (lastAusIdx bs) i (bs.getD i emptyBlock) =
      specBlockHours offset bs i := by
  have hfe : (if firstEinIdx bs = some i then offset else 0) =
      (if isFirstEinBlock bs i then offset else 0) :=
    if_congr (firstEinIdx_eq_some_iff bs i) rfl rfl
  have hla : (if lastAusIdx bs = some i then offset else 0) =
      (if isLastAusBlock bs i then offset else 0) :=
    if_congr (lastAusIdx_eq_some_iff bs i) rfl rfl
  rw [blockHoursCalc, specBlockHours, hfe, hla]

/-- With no offset-receiving blocks the per-block hours are the plain
span hours. -/
lemma blockHoursCalc_none_none (offset : ℤ) (i : ℕ) (b : StampBlock) :
    blockHoursCalc offset none none i b = plainBlockHours b := by
  rw [blockHoursCalc, plainBlockHours]
  cases b.ein <;> cases b.aus <;> simp

/-- C3: on a non-Home day, `recalculate_day`'s per-block hours apply
the travel offset exactly once — subtracted from the entry of the
first block (in block order) with a non-empty entry, added to the exit
of the last block (in reverse block order) with a non-empty exit — and
on a Home day no block receives any offset; a single 09:00-17:00 block
with a 2-minute offset spans 8 h 4 min on an Office day and exactly
8 h on a Home day. -/
theorem C3_travel_offset :
    (∀ (offset : ℤ) (bs : List StampBlock),
        recalcHours offset false bs =
          (List.range bs.length).map (specBlockHours offset bs)) ∧
    (∀ (offset : ℤ) (bs : List StampBlock),
        recalcHours offset true bs = bs.map plainBlockHours) ∧
    (∀ (cfg : Config) (nb : ℕ) (d : Date) (r : Row),
        (recalcRow cfg nb d r).blocks.map (fun b => b.stunden) =
          (recalcHours (getTravelOffset cfg) (decide (r.status = "Home"))
              (readBlocks nb r)).map
            (Option.map (fun h => hoursToFraction (round2 h)))) ∧
    recalcHours 2 false [{ ein := some 540, aus := some 1020 }] =
      [some (round4 ((8 * 60 + 4 : ℚ) / 60))] ∧
    recalcHours 2 true [{ ein := some 540, aus := some 1020 }] = [some 8] := by
  refine ⟨?_, ?_, ?_, by with_unfolding_all rfl, by with_unfolding_all rfl⟩
  · intro offset bs
    rw [recalcHours]
    simp only [Bool.false_eq_true, if_false]
    exact List.map_congr_left (fun i _ => blockHoursCalc_eq_spec offset bs i)
  · intro offset bs
    rw [recalcHours]
    simp only [if_true]
    have h1 : (List.range bs.length).map
        (fun i => blockHoursCalc offset none none i (bs.getD i emptyBlock)) =
        (List.range bs.length).map (fun i => plainBlockHours (bs.getD i emptyBlock)) :=
      List.map_congr_left (fun i _ => blockHoursCalc_none_none offset i _)
    rw [h1, map_range_getD]
  · intro cfg nb d r
    show List.map _ ((List.range nb).map _) = _
    rw [List.map_map]
    have hlen : (recalcHours (getTravelOffset cfg)
        (decide (r.status = "Home")) (readBlocks nb r)).length = nb := by
      simp [recalcHours, readBlocks]
    exact (List.map_congr_left fun i _ => rfl).trans
      (map_range_getD2 nb _ hlen none (Option.map fun h => hoursToFraction (round2 h)))

/-- C1 (counterexample): the 2023 walk ends with a December cumulative
of 1.0, 2024 has no configured carry-over, yet the carry passed to
`recalculate_sheet_summary` for January 2024 is 0, not 1.0. -/
theorem C1_counterexample :
    hasCarryOver cfgDefault 2024 = false ∧
    engineTrace cfgDefault c1store c1cut =
      [⟨2023, 12, 0, 1⟩, ⟨2024, 1, 0, 0⟩] ∧
    (1 : ℚ) ≠ 0 := by
  refine ⟨rfl, by with_unfolding_all rfl, by norm_num⟩

/-- C1 (amended): within a processed year every period's carry-in is
the previous processed period's cumulative, but each year is seeded
with `get_carry_over(config, year)` — the configured value when set,
0.0 otherwise — never with the previous year's December cumulative. -/
theorem C1_amended_carry_chain :
    (∀ (cfg : Config) (cutoff : Date) (year : ℕ) (wb : Workbook)
        (carry bal : ℚ) (ms : List ℕ),
        chainedFrom carry (processMonths cfg cutoff year wb carry bal ms).trace) ∧
    (∀ (cfg : Config) (cutoff : Date) (st : Store) (bal : ℚ) (y : ℕ)
        (ys : List ℕ) (wb : Workbook), st.books.lookup y = some wb →
        (processYears cfg cutoff st bal (y :: ys)).trace =
          (processMonths cfg cutoff y wb (getCarryOver cfg y) bal
              (monthsFor cutoff y)).trace ++
            (processYears cfg cutoff
              ⟨updateAssoc st.books y (processMonths cfg cutoff y wb
                  (getCarryOver cfg y) bal (monthsFor cutoff y)).wb⟩
              (processMonths cfg cutoff y wb (getCarryOver cfg y) bal
                (monthsFor cutoff y)).bal ys).trace) := by
  constructor
  · intro cfg cutoff year wb carry bal ms
    induction ms generalizing wb carry bal with
    | nil => simp [processMonths, chainedFrom]
    | cons m ms ih =>
      cases h : wb.sheets.lookup m with
      | none => simpa [processMonths, h] using ih wb carry bal
      | some sh =>
        simp only [processMonths, h]
        exact ⟨rfl, ih _ _ _⟩
  · intro cfg cutoff st bal y ys wb h
    simp only [processYears, h]

/-- Witness for C1 (amended) on the concrete two-year store: the 2023
months chain from carry 0 and the year split exposes the
`get_carry_over` seeding. -/
theorem C1_amended_carry_chain_witness :
    chainedFrom 0 (processMonths cfgDefault c1cut 2023 c1book2023 0 0
        [1, 2, 3, 4, 5, 6, 7, 8, 9, 10, 11, 12]).trace ∧
    (processYears cfgDefault c1cut c1store 0 [2023, 2024]).trace =
      (processMonths cfgDefault c1cut 2023 c1book2023
          (getCarryOver cfgDefault 2023) 0 (monthsFor c1cut 2023)).trace ++
        (processYears cfgDefault c1cut
          ⟨updateAssoc c1store.books 2023 (processMonths cfgDefault c1cut 2023
              c1book2023 (getCarryOver cfgDefault 2023) 0
              (monthsFor c1cut 2023)).wb⟩
          (processMonths cfgDefault c1cut 2023 c1book2023
            (getCarryOver cfgDefault 2023) 0 (monthsFor c1cut 2023)).bal
          [2024]).trace :=
  ⟨C1_amended_carry_chain.1 cfgDefault c1cut 2023 c1book2023 0 0 _,
   C1_amended_carry_chain.2 cfgDefault c1cut c1store 0 2023 [2024] c1book2023
     (by with_unfolding_all rfl)⟩

/-- The running balance accumulator of the month loop only shifts the
result: the rest of the state is independent of it. -/
lemma processMonths_bal_shift (cfg : Config) (cutoff : Date) (year : ℕ)
    (ms : List ℕ) :
    ∀ (wb : Workbook) (carry bal : ℚ),
      processMonths cfg cutoff year wb carry bal ms =
        { processMonths cfg cutoff year wb carry 0 ms with
          bal := bal + (processMonths cfg cutoff year wb carry 0 ms).bal } := by
  induction ms with
  | nil => intro wb carry bal; simp [processMonths]
  | cons m ms ih =>
    intro wb carry bal
    cases h : wb.sheets.lookup m with
    | none =>
      simp only [processMonths, h]
      exact ih wb carry bal
    | some sh =>
      simp only [processMonths, h]
      rw [ih _ _ (bal + _), ih _ _ (0 + _)]
      simp [MonthsResult.mk.injEq]
      ring

/-- The running balance accumulator of the year loop only shifts the
result. -/
lemma processYears_bal_shift (cfg : Config) (cutoff : Date) (ys : List ℕ) :
    ∀ (st : Store) (bal : ℚ),
      processYears cfg cutoff st bal ys =
        { processYears cfg cutoff st 0 ys with
          bal := bal + (processYears cfg cutoff st 0 ys).bal } := by
  induction ys with
  | nil => intro st bal; simp [processYears]
  | cons y ys ih =>
    intro st bal
    cases h : st.books.lookup y with
    | none =>
      simp only [processYears, h]
      exact ih st bal
    | some wb =>
      simp only [processYears, h]
      rw [processMonths_bal_shift cfg cutoff y _ wb _ bal,
        processMonths_bal_shift cfg cutoff y _ wb _ 0]
      rw [ih _ (bal + _), ih _ (0 + _)]
      simp [YearsResult.mk.injEq]
      ring

/-- C4 (counterexample): with carry-over {2023: 5.0}, no tracked data
before 2023 (the earliest tracked year is 2023 itself) and per-day
balances summing to 2.0 h through the cutoff, the grand total is 2.0,
not 7.0 — years not strictly before the earliest tracked year
contribute no carry-over. -/
theorem C4_counterexample :
    getCarryOver c4cfg 2023 = 5 ∧
    earliestYear c4storeA = some 2023 ∧
    (∀ p ∈ c4storeA.books, 2023 ≤ p.1) ∧
    calculateOvertimeBalance c4cfg c4storeA c4cutA = 2 ∧
    ¬ calculateOvertimeBalance c4cfg c4storeA c4cutA = 7 := by
  refine ⟨by with_unfolding_all rfl, by with_unfolding_all rfl, ?_,
    by with_unfolding_all rfl, ?_⟩
  · intro p hp
    simp only [c4storeA] at hp
    simp only [List.mem_singleton] at hp
    subst hp
    norm_num
  · intro h
    rw [show calculateOvertimeBalance c4cfg c4storeA c4cutA = 2 from
      by with_unfolding_all rfl] at h
    norm_num at h

/-- C4 (amended): the grand total decomposes as the carry-over sum of
years strictly before the earliest tracked year plus the accumulated
pre-cutoff day contributions, rounded to 2 decimals; with carry-over
{2023: 5.0}, earliest tracked year 2024 and day balances summing to
2.0 h through the cutoff it is 7.0. -/
theorem C4_grand_total :
    (∀ (cfg : Config) (st : Store) (cutoff : Date) (e : ℕ),
        earliestYear st = some e →
        calculateOvertimeBalance cfg st cutoff =
          round2 (preCarrySum cfg e +
            (processYears cfg cutoff st 0 (yearsList e cutoff.year)).bal)) ∧
    getCarryOver c4cfg 2023 = 5 ∧
    earliestYear c4storeB = some 2024 ∧
    calculateOvertimeBalance c4cfg c4storeB c4cutB = 7 := by
  refine ⟨?_, by with_unfolding_all rfl, by with_unfolding_all rfl,
    by with_unfolding_all rfl⟩
  intro cfg st cutoff e h
  simp only [calculateOvertimeBalance, h]
  congr 1
  rw [processYears_bal_shift]

/-- Witness for C4's decomposition on the concrete 2024 store. -/
theorem C4_grand_total_witness :
    calculateOvertimeBalance c4cfg c4storeB c4cutB =
      round2 (preCarrySum c4cfg 2024 +
        (processYears c4cfg c4cutB c4storeB 0
          (yearsList 2024 c4cutB.year)).bal) :=
  C4_grand_total.1 c4cfg c4storeB c4cutB 2024 (by with_unfolding_all rfl)

lemma getD_map_range {α : Type} (n : ℕ) (f : ℕ → α) (x : α) (i : ℕ)
    (h : i < n) :
    ((List.range n).map f).getD i x = f i := by
  rw [getD_of_lt _ _ _ (by simpa using h)]
  simp

lemma getBlock_setBlock_self (r : Row) (i : ℕ) (b : StampBlock) :
    getBlock (setBlock r i b) i = b := by
  rw [getBlock, setBlock]
  have hlen : i < ((r.blocks ++
      List.replicate (i + 1 - r.blocks.length) emptyBlock).set i b).length := by
    simp [List.length_set, List.length_append, List.length_replicate]
    omega
  rw [getD_of_lt _ _ _ hlen]
  exact List.getElem_set_self _

lemma recalculateDay_numBlocks (cfg : Config) (d : Date) (s : Sheet) :
    (recalculateDay cfg d s).numBlocks = s.numBlocks := by
  rw [recalculateDay]
  cases findDayRow s d <;> rfl

lemma recalcRow_getBlock_ein (cfg : Config) (nb : ℕ) (d : Date) (r : Row)
    (i : ℕ) (h : i < nb) :
    (getBlock (recalcRow cfg nb d r) i).ein = (getBlock r i).ein := by
  show (((List.range nb).map _).getD i emptyBlock).ein = _
  rw [getD_map_range nb _ emptyBlock i h]

lemma lastOpenIdx_eq_none_iff (nb : ℕ) (r : Row) :
    lastOpenIdx nb r = none ↔
      ∀ j < nb, ¬ ((getBlock r j).ein.isSome = true ∧
        (getBlock r j).aus = none) := by
  rw [lastOpenIdx, List.find?_eq_none]
  constructor
  · intro hall j hj
    have := hall j (by simp [List.mem_reverse, List.mem_range, hj])
    simpa [Option.isNone_iff_eq_none] using this
  · intro hall j hj
    simp only [List.mem_reverse, List.mem_range] at hj
    have := hall j hj
    simpa [Option.isNone_iff_eq_none] using this

lemma findInsertIdx_le (rows : List Row) (d : Date) :
    findInsertIdx rows d ≤ rows.length := by
  rw [findInsertIdx]
  cases h : rows.findIdx? (fun r => Date.before d r.date) with
  | none => exact le_refl _
  | some j =>
      rw [List.findIdx?_eq_some_iff_getElem] at h
      exact le_of_lt h.1

/-- The freshly inserted day row as `_insert_day_row` creates it. -/
lemma insertDayRow_getD (cfg : Config) (d : Date) (s : Sheet) :
    (insertDayRow cfg d s).2.rows.getD (insertDayRow cfg d s).1 default =
      { date := d, weekdayName := weekdayName d,
        soll := some (hoursToFraction (getExpectedHours cfg (weekday d))) } := by
  rw [insertDayRow]
  have hle := findInsertIdx_le s.rows d
  have hlen : findInsertIdx s.rows d < (s.rows.insertIdx (findInsertIdx s.rows d)
      ({ date := d, weekdayName := weekdayName d,
         soll := some (hoursToFraction (getExpectedHours cfg (weekday d))) } : Row)).length := by
    rw [List.length_insertIdx _ _ hle]
    omega
  rw [getD_of_lt _ _ _ hlen]
  exact List.getElem_insertIdx_self _ _ _ hle

/-- C5: a clock-in stamp never fails (when every block is occupied a
new block is appended and receives the time), while a clock-out stamp
fails exactly when no block of the day has an entry with an empty
exit. -/
theorem C5_write_stamp_protocol :
    (∀ (cfg : Config) (d : Date) (t : ℤ) (home : Bool) (s : Sheet),
        (writeStamp cfg d t .ein home s).1 = none) ∧
    (∀ (cfg : Config) (d : Date) (t : ℤ) (s : Sheet) (i : ℕ),
        findDayRow s d = some i →
        ((writeStamp cfg d t .aus false s).1.isSome = true ↔
          ¬ ∃ j, j < s.numBlocks ∧
            (getBlock (s.rows.getD i default) j).ein.isSome = true ∧
            (getBlock (s.rows.getD i default) j).aus = none)) ∧
    (∀ (cfg : Config) (d : Date) (t : ℤ) (home : Bool) (s : Sheet) (i : ℕ),
        findDayRow s d = some i →
        (∀ j < s.numBlocks, (getBlock (s.rows.getD i default) j).ein.isSome = true) →
        (writeStamp cfg d t .ein home s).2.numBlocks = s.numBlocks + 1 ∧
        (getBlock ((writeStamp cfg d t .ein home s).2.rows.getD i default)
          s.numBlocks).ein = some t) := by
  refine ⟨fun cfg d t home s => rfl, ?_, ?_⟩
  · intro cfg d t s i h
    rw [writeStamp]
    simp only [h]
    cases hop : lastOpenIdx s.numBlocks (s.rows.getD i default) with
    | none =>
        rw [lastOpenIdx_eq_none_iff] at hop
        refine iff_of_true (by simp) ?_
        rintro ⟨j, hj, hein, haus⟩
        exact hop j hj ⟨hein, haus⟩
    | some j =>
        have hj := List.mem_of_find?_eq_some hop
        simp only [List.mem_reverse, List.mem_range] at hj
        have hp := List.find?_some hop
        simp only [Bool.and_eq_true, Option.isNone_iff_eq_none] at hp
        exact iff_of_false (by simp) (not_not_intro ⟨j, hj, hp.1, hp.2⟩)
  · intro cfg d t home s i h hall
    have hfind : (List.range s.numBlocks).find?
        (fun j => (getBlock (s.rows.getD i default) j).ein.isNone) = none := by
      rw [List.find?_eq_none]
      intro j hj
      simp only [List.mem_range] at hj
      have := hall j hj
      simp [Option.isNone_iff_eq_none, Option.isSome_iff_ne_none] at this ⊢
      exact this
    have hrd : (s.rows.getD i default).date = d := findDayRow_date h
    have hilen : i < s.rows.length := findDayRow_lt h
    set r := s.rows.getD i default with hrdef
    set r2 := setBlock r s.numBlocks { getBlock r s.numBlocks with ein := some t } with hr2
    set r3 := (if s.numBlocks = 0 then
        { r2 with status := if home then "Home" else "Office" } else r2) with hr3
    set S3 : Sheet :=
      { s with numBlocks := s.numBlocks + 1, rows := s.rows.set i r3 } with hS3
    have hr3blocks : ∀ k, getBlock r3 k = getBlock r2 k := by
      intro k
      rw [hr3]
      split <;> rfl
    have hr3date : r3.date = d := by
      rw [hr3]
      split <;> simp [hr2, setBlock, hrd]
    have hws : (writeStamp cfg d t .ein home s).2 = recalculateDay cfg d S3 := by
      rw [writeStamp]
      simp only [h, hfind]
      rfl
    have hfd : findDayRow S3 d = some i := findDayRow_set h hr3date S3 rfl
    rw [hws]
    have hrd2 : recalculateDay cfg d S3 =
        { S3 with rows := S3.rows.set i (recalcRow cfg S3.numBlocks d (S3.rows.getD i default)) } := by
      rw [recalculateDay, hfd]
    rw [hrd2]
    have hlen2 : i < S3.rows.length := by
      rw [hS3]
      simpa [List.length_set] using hilen
    constructor
    · rfl
    · have hlen3 : i < (S3.rows.set i
          (recalcRow cfg S3.numBlocks d (S3.rows.getD i default))).length := by
        simpa [List.length_set] using hlen2
      rw [getD_of_lt _ _ _ hlen3]
      rw [List.getElem_set_self hlen3]
      have hgd : S3.rows.getD i default = r3 := by
        rw [hS3]
        rw [getD_of_lt _ _ _ (by simpa [List.length_set] using hilen)]
        exact List.getElem_set_self (by simpa [List.length_set] using hilen)
      rw [hgd]
      have hnb : S3.numBlocks = s.numBlocks + 1 := rfl
      rw [hnb]
      rw [recalcRow_getBlock_ein _ _ _ _ _ (by omega)]
      rw [hr3blocks, hr2, getBlock_setBlock_self]

/-- C9: a clock-out on a date with no day row first inserts a fresh
row (weekday label and expected hours filled in) and only then raises
the no-open-entry error — the worksheet is mutated although the
operation fails. -/
theorem C9_failed_clock_out_mutates :
    ∀ (cfg : Config) (d : Date) (t : ℤ) (s : Sheet),
      findDayRow s d = none →
      writeStamp cfg d t .aus false s =
        (some "Kein offener Eintrag gefunden. Bitte zuerst einstempeln.",
         (insertDayRow cfg d s).2) ∧
      (insertDayRow cfg d s).2.rows.length = s.rows.length + 1 ∧
      (insertDayRow cfg d s).2.rows.getD (insertDayRow cfg d s).1 default =
        { date := d, weekdayName := weekdayName d,
          soll := some (hoursToFraction (getExpectedHours cfg (weekday d))) } := by
  intro cfg d t s h
  have hgd := insertDayRow_getD cfg d s
  have hop : lastOpenIdx (insertDayRow cfg d s).2.numBlocks
      ((insertDayRow cfg d s).2.rows.getD (insertDayRow cfg d s).1 default) =
      none := by
    rw [lastOpenIdx_eq_none_iff]
    intro j hj
    rw [hgd]
    rintro ⟨hein, -⟩
    simp [getBlock, emptyBlock] at hein
  refine ⟨?_, ?_, hgd⟩
  · rw [writeStamp]
    simp only [h, hop]
  · rw [insertDayRow]
    simpa using List.length_insertIdx _ _ (findInsertIdx_le s.rows d)

set_option maxRecDepth 4000 in
/-- Witness for C5 on a concrete sheet whose single row has one open
block and three occupied entries. -/
theorem C5_write_stamp_protocol_witness :
    (writeStamp cfgDefault c10date 720 .ein false c6sheet).1 = none ∧
    ((writeStamp cfgDefault ⟨2024, 1, 8⟩ 720 .aus false
        { rows := [{ date := ⟨2024, 1, 8⟩, blocks := [{ ein := some 480 }] }] }).1.isSome = true ↔
      ¬ ∃ j, j < (3 : ℕ) ∧
        (getBlock ({ date := ⟨2024, 1, 8⟩, blocks := [{ ein := some 480 }] } : Row) j).ein.isSome = true ∧
        (getBlock ({ date := ⟨2024, 1, 8⟩, blocks := [{ ein := some 480 }] } : Row) j).aus = none) ∧
    ((writeStamp cfgDefault ⟨2024, 1, 8⟩ 900 .ein false
        { numBlocks := 1, rows := [{ date := ⟨2024, 1, 8⟩, blocks := [{ ein := some 480, aus := some 600 }] }] }).2.numBlocks
        = 2 ∧
      (getBlock ((writeStamp cfgDefault ⟨2024, 1, 8⟩ 900 .ein false
          { numBlocks := 1, rows := [{ date := ⟨2024, 1, 8⟩, blocks := [{ ein := some 480, aus := some 600 }] }] }).2.rows.getD
          0 default) 1).ein = some 900) := by
  refine ⟨C5_write_stamp_protocol.1 cfgDefault c10date 720 false c6sheet, ?_, ?_⟩
  · exact C5_write_stamp_protocol.2.1 cfgDefault ⟨2024, 1, 8⟩ 720 _ 0
      (by with_unfolding_all rfl)
  · exact C5_write_stamp_protocol.2.2 cfgDefault ⟨2024, 1, 8⟩ 900 false _ 0
      (by with_unfolding_all rfl)
      (by intro j hj; interval_cases j; with_unfolding_all rfl)

/-- Witness for C9 on the empty sheet. -/
theorem C9_failed_clock_out_mutates_witness :
    writeStamp cfgDefault ⟨2024, 1, 10⟩ 1020 .aus false { rows := [] } =
      (some "Kein offener Eintrag gefunden. Bitte zuerst einstempeln.",
       (insertDayRow cfgDefault ⟨2024, 1, 10⟩ { rows := [] }).2) ∧
    (insertDayRow cfgDefault ⟨2024, 1, 10⟩ { rows := [] }).2.rows.length = 1 ∧
    (insertDayRow cfgDefault ⟨2024, 1, 10⟩
        { rows := [] }).2.rows.getD
        (insertDayRow cfgDefault ⟨2024, 1, 10⟩ { rows := [] }).1 default =
      { date := ⟨2024, 1, 10⟩, weekdayName := weekdayName ⟨2024, 1, 10⟩,
        soll := some (hoursToFraction
          (getExpectedHours cfgDefault (weekday ⟨2024, 1, 10⟩))) } :=
  C9_failed_clock_out_mutates cfgDefault ⟨2024, 1, 10⟩ 1020 { rows := [] } rfl

/-- `fill_missing_days` leaves any row with a computed Gesamt alone. -/
lemma fillRow_of_gesamt (cfg : Config) (nb : ℕ) (cutoff : Date) (r : Row)
    (h : r.gesamt.isSome = true) :
    fillRow cfg nb cutoff r = r := by
  rw [fillRow]
  split_ifs <;> rfl

/-- `fill_missing_days` leaves any row with an Ein stamp alone. -/
lemma fillRow_of_ein (cfg : Config) (nb : ℕ) (cutoff : Date) (r : Row)
    (h : ∃ j < nb, (getBlock r j).ein.isSome = true) :
    fillRow cfg nb cutoff r = r := by
  obtain ⟨j, hj, hp⟩ := h
  have hany : ((List.range nb).any fun i => (getBlock r i).ein.isSome) = true :=
    List.any_eq_true.mpr ⟨j, List.mem_range.mpr hj, hp⟩
  rw [fillRow]
  split_ifs <;> rfl

/-- `fill_missing_days` leaves rows on/after the cutoff alone. -/
lemma fillRow_of_after (cfg : Config) (nb : ℕ) (cutoff : Date) (r : Row)
    (h : ¬ Date.before r.date cutoff = true) :
    fillRow cfg nb cutoff r = r := by
  rw [fillRow, if_pos h]

/-- The fill branch of `fill_missing_days`. -/
lemma fillRow_fills (cfg : Config) (nb : ℕ) (cutoff : Date) (r : Row)
    (hb : Date.before r.date cutoff = true)
    (hnone : ∀ j < nb, (getBlock r j).ein = none)
    (hg : r.gesamt = none) :
    fillRow cfg nb cutoff r =
      { r with
        gesamt := some (hoursToFraction (getExpectedHours cfg (weekday r.date))),
        soll := some (hoursToFraction (getExpectedHours cfg (weekday r.date))),
        saldo := some 0 } := by
  have hany : ((List.range nb).any fun i => (getBlock r i).ein.isSome) = false := by
    rw [List.any_eq_false]
    intro j hj
    rw [hnone j (List.mem_range.mp hj)]
    simp
  rw [fillRow, if_neg (not_not_intro hb), if_neg (by simp [hany]),
    if_neg (by simp [hg])]

/-- One pass of `fill_missing_days` is idempotent row-wise. -/
lemma fillRow_idem (cfg : Config) (nb : ℕ) (cutoff : Date) (r : Row) :
    fillRow cfg nb cutoff (fillRow cfg nb cutoff r) = fillRow cfg nb cutoff r := by
  by_cases hg : (fillRow cfg nb cutoff r).gesamt.isSome = true
  · exact fillRow_of_gesamt cfg nb cutoff _ hg
  · have hid : fillRow cfg nb cutoff r = r := by
      by_cases hb : Date.before r.date cutoff = true
      · by_cases hany : ((List.range nb).any fun i => (getBlock r i).ein.isSome) = true
        · rcases List.any_eq_true.mp hany with ⟨j, hj, hp⟩
          exact fillRow_of_ein cfg nb cutoff r ⟨j, List.mem_range.mp hj, hp⟩
        · by_cases hge : r.gesamt.isSome = true
          · exact fillRow_of_gesamt cfg nb cutoff r hge
          · exfalso
            apply hg
            rw [fillRow_fills cfg nb cutoff r hb ?_ ?_]
            · rfl
            · intro j hj
              by_contra hcon
              apply hany
              refine List.any_eq_true.mpr ⟨j, List.mem_range.mpr hj, ?_⟩
              cases hcase : (getBlock r j).ein with
              | none => exact absurd hcase hcon
              | some v => rfl
            · cases hcase : r.gesamt with
              | none => rfl
              | some v => rw [hcase] at hge; simp at hge
      · exact fillRow_of_after cfg nb cutoff r hb
    rw [hid]
    exact hid

/-- C6 (amended): `fill_missing_days` only rewrites rows strictly
before the cutoff that carry no Ein (entry) stamp and no computed
total; each filled row gets total = expected and balance = 0; the
sheet's other parts are untouched and a second run is a no-op.  (A row
carrying only an Aus stamp counts as stampless and is filled — see the
counterexample.) -/
theorem C6_fill_missing_frame :
    (∀ (cfg : Config) (nb : ℕ) (cutoff : Date) (r : Row),
        ¬ Date.before r.date cutoff = true → fillRow cfg nb cutoff r = r) ∧
    (∀ (cfg : Config) (nb : ℕ) (cutoff : Date) (r : Row),
        (∃ j < nb, (getBlock r j).ein.isSome = true) →
        fillRow cfg nb cutoff r = r) ∧
    (∀ (cfg : Config) (nb : ℕ) (cutoff : Date) (r : Row),
        r.gesamt.isSome = true → fillRow cfg nb cutoff r = r) ∧
    (∀ (cfg : Config) (nb : ℕ) (cutoff : Date) (r : Row),
        Date.before r.date cutoff = true →
        (∀ j < nb, (getBlock r j).ein = none) → r.gesamt = none →
        fillRow cfg nb cutoff r =
          { r with
            gesamt := some (hoursToFraction (getExpectedHours cfg (weekday r.date))),
            soll := some (hoursToFraction (getExpectedHours cfg (weekday r.date))),
            saldo := some 0 }) ∧
    (∀ (cfg : Config) (cutoff : Date) (s : Sheet),
        fillMissingDays cfg cutoff s =
          { s with rows := s.rows.map (fillRow cfg s.numBlocks cutoff) }) ∧
    (∀ (cfg : Config) (cutoff : Date) (s : Sheet),
        fillMissingDays cfg cutoff (fillMissingDays cfg cutoff s) =
          fillMissingDays cfg cutoff s) := by
  refine ⟨fillRow_of_after, fillRow_of_ein, fillRow_of_gesamt, fillRow_fills,
    fun cfg cutoff s => rfl, ?_⟩
  intro cfg cutoff s
  show ({ s with rows := _ } : Sheet) = { s with rows := _ }
  congr 1
  show List.map _ (List.map _ s.rows) = _
  rw [List.map_map]
  exact List.map_congr_left fun r _ => fillRow_idem cfg s.numBlocks cutoff r

/-- Witness for C6 on concrete rows: a future row, a stamped row and a
filled row are skipped, and a blank past workday is filled. -/
theorem C6_fill_missing_frame_witness :
    fillRow cfgDefault 3 c6cut { date := ⟨2024, 3, 1⟩ } = { date := ⟨2024, 3, 1⟩ } ∧
    fillRow cfgDefault 3 c6cut
        { date := ⟨2024, 1, 3⟩, blocks := [{ ein := some 480 }] } =
      { date := ⟨2024, 1, 3⟩, blocks := [{ ein := some 480 }] } ∧
    fillRow cfgDefault 3 c6cut { date := ⟨2024, 1, 3⟩, gesamt := some 8 } =
      { date := ⟨2024, 1, 3⟩, gesamt := some 8 } ∧
    fillRow cfgDefault 3 c6cut ({ date := ⟨2024, 1, 3⟩ } : Row) =
      { ({ date := ⟨2024, 1, 3⟩ } : Row) with
        gesamt := some (hoursToFraction (getExpectedHours cfgDefault
          (weekday (⟨2024, 1, 3⟩ : Date)))),
        soll := some (hoursToFraction (getExpectedHours cfgDefault
          (weekday (⟨2024, 1, 3⟩ : Date)))),
        saldo := some 0 } ∧
    fillMissingDays cfgDefault c6cut (fillMissingDays cfgDefault c6cut c6sheet) =
      fillMissingDays cfgDefault c6cut c6sheet := by
  refine ⟨C6_fill_missing_frame.1 cfgDefault 3 c6cut _ (by decide),
    C6_fill_missing_frame.2.1 cfgDefault 3 c6cut _
      ⟨0, by norm_num, by with_unfolding_all rfl⟩,
    C6_fill_missing_frame.2.2.1 cfgDefault 3 c6cut _ rfl,
    C6_fill_missing_frame.2.2.2.1 cfgDefault 3 c6cut _
      (by with_unfolding_all rfl) ?_ rfl,
    C6_fill_missing_frame.2.2.2.2.2 cfgDefault c6cut c6sheet⟩
  intro j hj
  interval_cases j <;> rfl

/-- C6 (counterexample): a pre-cutoff row holding only an Aus stamp —
a recorded stamp — is still filled, because `fill_missing_days` checks
only the Ein cells. -/
theorem C6_fill_counterexample :
    (getBlock (c6sheet.rows.getD 0 default) 0).aus = some 1020 ∧
    (c6sheet.rows.getD 0 default).gesamt = none ∧
    Date.before (c6sheet.rows.getD 0 default).date c6cut = true ∧
    ((fillMissingDays cfgDefault c6cut c6sheet).rows.getD 0 default).gesamt =
      some (hoursToFraction 8) ∧
    some (hoursToFraction 8) ≠ (none : Option ℚ) := by
  exact ⟨by with_unfolding_all rfl, rfl, by with_unfolding_all rfl,
    by with_unfolding_all rfl, by simp⟩

lemma setDaySick_of_found (cfg : Config) (d : Date) (s : Sheet) (i : ℕ)
    (h : findDayRow s d = some i) :
    setDaySick cfg d s =
      { s with rows := s.rows.set i (sickRowOf cfg d (s.rows.getD i default)) } := by
  rw [setDaySick, h]
  rfl

/-- C7: for every existing day row, whatever its stamps, the Sick
override sets status "Krank", Gesamt to the day's expected hours (the
Soll cell when set, the weekly schedule otherwise) and Saldo to 0, and
a second application changes nothing. -/
theorem C7_sick_override :
    (∀ (cfg : Config) (d : Date) (s : Sheet) (i : ℕ),
        findDayRow s d = some i →
        (setDaySick cfg d s).rows =
          s.rows.set i (sickRowOf cfg d (s.rows.getD i default)) ∧
        ((setDaySick cfg d s).rows.getD i default).status = "Krank" ∧
        ((setDaySick cfg d s).rows.getD i default).gesamt =
          some (hoursToFraction (readCell
            (match (s.rows.getD i default).soll with
             | some v => v
             | none => getExpectedHours cfg (weekday d)))) ∧
        ((setDaySick cfg d s).rows.getD i default).saldo = some 0) ∧
    (∀ (cfg : Config) (d : Date) (s : Sheet),
        setDaySick cfg d (setDaySick cfg d s) = setDaySick cfg d s) := by
  constructor
  · intro cfg d s i h
    have hilen := findDayRow_lt h
    rw [setDaySick_of_found cfg d s i h]
    have hlen2 : i < (s.rows.set i (sickRowOf cfg d (s.rows.getD i default))).length := by
      simpa [List.length_set] using hilen
    have hgd : (s.rows.set i (sickRowOf cfg d (s.rows.getD i default))).getD i default =
        sickRowOf cfg d (s.rows.getD i default) := by
      rw [getD_of_lt _ _ _ hlen2]
      exact List.getElem_set_self hlen2
    exact ⟨rfl, by rw [hgd]; rfl, by rw [hgd]; rfl, by rw [hgd]; rfl⟩
  · intro cfg d s
    cases h : findDayRow s d with
    | none =>
        have h1 : setDaySick cfg d s = s := by rw [setDaySick, h]
        rw [h1, h1]
    | some i =>
        have hilen := findDayRow_lt h
        have hrd := findDayRow_date h
        have h1 := setDaySick_of_found cfg d s i h
        have hdate2 : (sickRowOf cfg d (s.rows.getD i default)).date = d := hrd
        have hfd2 : findDayRow
            { s with rows := s.rows.set i (sickRowOf cfg d (s.rows.getD i default)) } d =
            some i := findDayRow_set h hdate2 _ rfl
        rw [h1, setDaySick_of_found cfg d _ i hfd2]
        have hlen2 : i < (s.rows.set i (sickRowOf cfg d (s.rows.getD i default))).length := by
          simpa [List.length_set] using hilen
        have hgd : (s.rows.set i (sickRowOf cfg d (s.rows.getD i default))).getD i default =
            sickRowOf cfg d (s.rows.getD i default) := by
          rw [getD_of_lt _ _ _ hlen2]
          exact List.getElem_set_self hlen2
        simp only [hgd]
        have hsick2 : sickRowOf cfg d (sickRowOf cfg d (s.rows.getD i default)) =
            sickRowOf cfg d (s.rows.getD i default) := rfl
        rw [hsick2]
        simp [List.set_set]

set_option maxRecDepth 4000 in
/-- Witness for C7 on a concrete stamped Office row. -/
theorem C7_sick_override_witness :
    ((setDaySick cfgDefault ⟨2024, 1, 8⟩
        { rows := [{ date := ⟨2024, 1, 8⟩, blocks := [{ ein := some 480, aus := some 600 }], status := "Office", gesamt := some (hoursToFraction (207/100)), soll := some (hoursToFraction 8), saldo := some (hoursToFraction (-593/100)) }] }).rows.getD
        0 default).status = "Krank" ∧
    ((setDaySick cfgDefault ⟨2024, 1, 8⟩
        { rows := [{ date := ⟨2024, 1, 8⟩, blocks := [{ ein := some 480, aus := some 600 }], status := "Office", gesamt := some (hoursToFraction (207/100)), soll := some (hoursToFraction 8), saldo := some (hoursToFraction (-593/100)) }] }).rows.getD
        0 default).saldo = some 0 := by
  have h := C7_sick_override.1 cfgDefault ⟨2024, 1, 8⟩
    { rows := [{ date := ⟨2024, 1, 8⟩, blocks := [{ ein := some 480, aus := some 600 }], status := "Office", gesamt := some (hoursToFraction (207/100)), soll := some (hoursToFraction 8), saldo := some (hoursToFraction (-593/100)) }] }
    0 (by with_unfolding_all rfl)
  exact ⟨h.2.1, h.2.2.2⟩

lemma getD_map {α β : Type} (f : α → β) (l : List α) (x : α) (i : ℕ) :
    (l.map f).getD i (f x) = f (l.getD i x) := by
  by_cases h : i < l.length
  · rw [getD_of_lt _ _ _ (by simpa using h), getD_of_lt _ _ _ h]
    simp
  · rw [getD_of_le _ _ _ (by simpa using not_lt.mp h),
      getD_of_le _ _ _ (not_lt.mp h)]

/-- `recalculate_day`'s per-block hours depend only on the Ein and Aus
cells of the block. -/
lemma blockHoursCalc_congr (o : ℤ) (fe la : Option ℕ) (i : ℕ)
    {b2 b : StampBlock} (he : b2.ein = b.ein) (ha : b2.aus = b.aus) :
    blockHoursCalc o fe la i b2 = blockHoursCalc o fe la i b := by
  rw [blockHoursCalc, blockHoursCalc, he, ha]

/-- The per-block hours list depends only on the Ein/Aus cells of the
blocks. -/
lemma findIdx?_map_eq {α β : Type} (p : β → Bool) (f : α → β) (l : List α) :
    (l.map f).findIdx? p = l.findIdx? (fun a => p (f a)) := by
  induction l with
  | nil => rfl
  | cons x xs ih =>
    rw [List.map_cons, List.findIdx?_cons, List.findIdx?_cons]
    by_cases hx : p (f x)
    · simp [hx]
    · simp only [hx, if_false]
      rw [List.findIdx?_start_succ, ih, List.findIdx?_start_succ]

/-- The per-block hours list depends only on the Ein/Aus cells of the
blocks. -/
lemma recalcHours_congr (o : ℤ) (hm : Bool) {bs2 bs : List StampBlock}
    (h : bs2.map einAus = bs.map einAus) :
    recalcHours o hm bs2 = recalcHours o hm bs := by
  have hlen : bs2.length = bs.length := by
    have h2 := congrArg List.length h
    simpa using h2
  have hfe : firstEinIdx bs2 = firstEinIdx bs := by
    rw [firstEinIdx, firstEinIdx]
    have h1 : bs2.findIdx? (fun b => b.ein.isSome) =
        (bs2.map einAus).findIdx? (fun pr => pr.1.isSome) :=
      (findIdx?_map_eq (fun pr => pr.1.isSome) einAus bs2).symm
    have h2 : bs.findIdx? (fun b => b.ein.isSome) =
        (bs.map einAus).findIdx? (fun pr => pr.1.isSome) :=
      (findIdx?_map_eq (fun pr => pr.1.isSome) einAus bs).symm
    rw [h1, h2, h]
  have hla : lastAusIdx bs2 = lastAusIdx bs := by
    rw [lastAusIdx, lastAusIdx, hlen]
    have h1 : bs2.reverse.findIdx? (fun b => b.aus.isSome) =
        (bs2.reverse.map einAus).findIdx? (fun pr => pr.2.isSome) :=
      (findIdx?_map_eq (fun pr => pr.2.isSome) einAus bs2.reverse).symm
    have h2 : bs.reverse.findIdx? (fun b => b.aus.isSome) =
        (bs.reverse.map einAus).findIdx? (fun pr => pr.2.isSome) :=
      (findIdx?_map_eq (fun pr => pr.2.isSome) einAus bs.reverse).symm
    rw [h1, h2, List.map_reverse, List.map_reverse, h]
  have hblk : ∀ i : ℕ, (bs2.getD i emptyBlock).ein = (bs.getD i emptyBlock).ein ∧
      (bs2.getD i emptyBlock).aus = (bs.getD i emptyBlock).aus := by
    intro i
    have h2 := congrArg (fun l => l.getD i (einAus emptyBlock)) h
    simp only at h2
    rw [getD_map, getD_map] at h2
    exact ⟨congrArg Prod.fst h2, congrArg Prod.snd h2⟩
  rw [recalcHours, recalcHours, hlen, hfe, hla]
  exact List.map_congr_left fun i _ =>
    blockHoursCalc_congr o _ _ i (hblk i).1 (hblk i).2

/-- The block `recalculate_day` writes at position `i`: Ein and Aus
kept, Stunden recomputed. -/
lemma recalcRow_getBlock (cfg : Config) (nb : ℕ) (d : Date) (r : Row)
    (i : ℕ) (h : i < nb) :
    getBlock (recalcRow cfg nb d r) i =
      { getBlock r i with stunden := ((recalcHours (getTravelOffset cfg) (decide (r.status = "Home")) (readBlocks nb r)).getD i none).map (fun x => hoursToFraction (round2 x)) } := by
  show (((List.range nb).map _).getD i emptyBlock) = _
  rw [getD_map_range nb _ emptyBlock i h]

/-- `recalculate_day` writes the same row for two input rows agreeing
on everything it reads (date, weekday label, status, Soll, and the
Ein/Aus cells of the first `nb` blocks); Stunden, Gesamt and Saldo are
overwritten anyway. -/
lemma recalcRow_congr (cfg : Config) (nb : ℕ) (d : Date) {r2 r : Row}
    (hdt : r2.date = r.date) (hwk : r2.weekdayName = r.weekdayName)
    (hst : r2.status = r.status) (hsoll : r2.soll = r.soll)
    (hproj : (readBlocks nb r2).map einAus = (readBlocks nb r).map einAus) :
    recalcRow cfg nb d r2 = recalcRow cfg nb d r := by
  have hH : recalcHours (getTravelOffset cfg) (decide (r2.status = "Home"))
      (readBlocks nb r2) =
      recalcHours (getTravelOffset cfg) (decide (r.status = "Home"))
      (readBlocks nb r) := by
    rw [hst]
    exact recalcHours_congr _ _ hproj
  have hblk : ∀ i : ℕ, i < nb → (getBlock r2 i).ein = (getBlock r i).ein ∧
      (getBlock r2 i).aus = (getBlock r i).aus := by
    intro i hi
    have h2 := congrArg (fun l => l.getD i (einAus emptyBlock)) hproj
    simp only [readBlocks, List.map_map] at h2
    rw [getD_map_range nb _ _ i hi, getD_map_range nb _ _ i hi] at h2
    exact ⟨congrArg Prod.fst h2, congrArg Prod.snd h2⟩
  simp only [recalcRow]
  rw [hH, hsoll, hdt, hwk, hst]
  apply Row.ext <;> try rfl
  apply List.map_congr_left
  intro i hi
  have hi2 := List.mem_range.mp hi
  apply StampBlock.ext
  · exact (hblk i hi2).1
  · exact (hblk i hi2).2
  · rfl

/-- Running `recalculate_day` on the row it just produced yields the
same row again, provided the row's Soll cell was already set. -/
lemma recalcRow_idem (cfg : Config) (nb : ℕ) (d : Date) (r : Row)
    (h : r.soll.isSome = true) :
    recalcRow cfg nb d (recalcRow cfg nb d r) = recalcRow cfg nb d r := by
  obtain ⟨v, hv⟩ := Option.isSome_iff_exists.mp h
  apply recalcRow_congr
  · rfl
  · rfl
  · rfl
  · simp only [recalcRow, hv]
  · rw [readBlocks, readBlocks, List.map_map, List.map_map]
    apply List.map_congr_left
    intro i hi
    have hi2 := List.mem_range.mp hi
    show einAus (getBlock (recalcRow cfg nb d r) i) = einAus (getBlock r i)
    rw [recalcRow_getBlock cfg nb d r i hi2]
    rfl

/-- C8 (amended): single-day recalculation is idempotent for every
sheet whose day rows carry a Soll (expected) value — running
`recalculate_day` twice equals running it once.  (When the target
row's Soll cell is empty, the first run persists the configured
expected hours and the second run reads them back rounded to two
decimals, which can change the balance — see the counterexample.) -/
theorem C8_recalc_idempotent :
    ∀ (cfg : Config) (d : Date) (s : Sheet),
      (∀ r ∈ s.rows, r.soll.isSome = true) →
      recalculateDay cfg d (recalculateDay cfg d s) = recalculateDay cfg d s := by
  intro cfg d s hall
  cases h : findDayRow s d with
  | none =>
      have h1 : recalculateDay cfg d s = s := by rw [recalculateDay, h]
      rw [h1, h1]
  | some i =>
      have hilen := findDayRow_lt h
      have hrd := findDayRow_date h
      have hsoll : (s.rows.getD i default).soll.isSome = true := by
        apply hall
        rw [getD_of_lt _ _ _ hilen]
        exact List.getElem_mem _
      have h1 : recalculateDay cfg d s =
          { s with rows := s.rows.set i (recalcRow cfg s.numBlocks d (s.rows.getD i default)) } := by
        rw [recalculateDay, h]
      have hdate2 : (recalcRow cfg s.numBlocks d (s.rows.getD i default)).date = d := hrd
      have hfd2 : findDayRow
          { s with rows := s.rows.set i (recalcRow cfg s.numBlocks d (s.rows.getD i default)) } d =
          some i := findDayRow_set h hdate2 _ rfl
      rw [h1, recalculateDay, hfd2]
      have hlen2 : i < (s.rows.set i (recalcRow cfg s.numBlocks d (s.rows.getD i default))).length := by
        simpa [List.length_set] using hilen
      have hgd : (s.rows.set i (recalcRow cfg s.numBlocks d (s.rows.getD i default))).getD i default =
          recalcRow cfg s.numBlocks d (s.rows.getD i default) := by
        rw [getD_of_lt _ _ _ hlen2]
        exact List.getElem_set_self hlen2
      simp only [hgd]
      rw [recalcRow_idem cfg s.numBlocks d _ hsoll]
      simp [List.set_set]

set_option maxRecDepth 4000 in
/-- Witness for C8 (amended) on a concrete one-row sheet with Soll
set. -/
theorem C8_recalc_idempotent_witness :
    recalculateDay cfgDefault ⟨2024, 1, 8⟩
        (recalculateDay cfgDefault ⟨2024, 1, 8⟩
          { rows := [{ date := ⟨2024, 1, 8⟩, blocks := [{ ein := some 540, aus := some 1020 }], soll := some (hoursToFraction 8) }] }) =
      recalculateDay cfgDefault ⟨2024, 1, 8⟩
        { rows := [{ date := ⟨2024, 1, 8⟩, blocks := [{ ein := some 540, aus := some 1020 }], soll := some (hoursToFraction 8) }] } := by
  apply C8_recalc_idempotent
  intro r hr
  simp only [List.mem_singleton] at hr
  subst hr
  rfl

set_option maxRecDepth 8000 in
/-- C8 (counterexample): on a row with an empty Soll cell and a
configured Monday expectation of 7.777 h, the first recalculation
yields balance -7.74 but the second -7.75 — recalculation is not
idempotent for every day row. -/
theorem C8_recalc_counterexample :
    ((recalculateDay c8cfg c8date c8sheet).rows.getD 0 default).saldo =
      some (hoursToFraction (-774/100)) ∧
    ((recalculateDay c8cfg c8date (recalculateDay c8cfg c8date c8sheet)).rows.getD
        0 default).saldo = some (hoursToFraction (-775/100)) ∧
    recalculateDay c8cfg c8date (recalculateDay c8cfg c8date c8sheet) ≠
      recalculateDay c8cfg c8date c8sheet := by
  refine ⟨by with_unfolding_all rfl, by with_unfolding_all rfl, ?_⟩
  intro hEq
  have h1 : ((recalculateDay c8cfg c8date c8sheet).rows.getD 0 default).saldo =
      some (hoursToFraction (-774/100)) := by with_unfolding_all rfl
  have h2 : ((recalculateDay c8cfg c8date (recalculateDay c8cfg c8date c8sheet)).rows.getD
      0 default).saldo = some (hoursToFraction (-775/100)) := by with_unfolding_all rfl
  rw [hEq, h1] at h2
  have h3 : hoursToFraction (-774/100) = hoursToFraction (-775/100) :=
    Option.some.inj h2
  norm_num [hoursToFraction] at h3

/-- C10: `recalculate_day` treats only the status "Home" as home, so a
day whose status is "Krank" is recalculated exactly like an Office day
(travel offset applied); on the concrete sick-overridden 9:00-18:00
day the forced total = expected = 8 h and balance = 0 are overwritten
with the stamp-derived 8.57 h and +0.57 h. -/
theorem C10_sick_not_preserved :
    (∀ (cfg : Config) (nb : ℕ) (d : Date) (r : Row),
        r.status = "Krank" →
        (∃ j < nb, (getBlock r j).ein.isSome = true ∧
          (getBlock r j).aus.isSome = true) →
        stripStatus (recalcRow cfg nb d r) =
          stripStatus (recalcRow cfg nb d { r with status := "Office" })) ∧
    c10row.status = "Krank" ∧
    c10row.gesamt = some (hoursToFraction 8) ∧
    c10row.saldo = some 0 ∧
    (recalcRow cfgDefault 3 c10date c10row).gesamt =
      some (hoursToFraction (857/100)) ∧
    (recalcRow cfgDefault 3 c10date c10row).saldo =
      some (hoursToFraction (57/100)) ∧
    some (hoursToFraction (857/100)) ≠ some (hoursToFraction 8) ∧
    some (hoursToFraction (57/100)) ≠ (some 0 : Option ℚ) := by
  refine ⟨?_, rfl, rfl, rfl, by with_unfolding_all rfl,
    by with_unfolding_all rfl, by norm_num [hoursToFraction],
    by norm_num [hoursToFraction]⟩
  intro cfg nb d r hst hex
  have h1 : (decide (r.status = "Home")) = false := by
    rw [hst]
    rfl
  have h2 : (decide ((({ r with status := "Office" } : Row)).status = "Home")) =
      false := rfl
  have hbl : readBlocks nb ({ r with status := "Office" } : Row) =
      readBlocks nb r := rfl
  rw [stripStatus, stripStatus]
  simp only [recalcRow, h1, h2, hbl]
  rfl

/-- Witness for C10 at the concrete sick row. -/
theorem C10_sick_not_preserved_witness :
    stripStatus (recalcRow cfgDefault 3 c10date c10row) =
      stripStatus (recalcRow cfgDefault 3 c10date
        { c10row with status := "Office" }) :=
  C10_sick_not_preserved.1 cfgDefault 3 c10date c10row rfl
    ⟨0, by norm_num, by with_unfolding_all rfl, by with_unfolding_all rfl⟩

end Stechuhr
